import Mathlib

/-!
Verification development for the VINF card/wiki entity-resolution engine.

The Python sources embedded here:
- wiki_parser/core/join_cards_wiki.py  (normalize, extract_base_pokemon,
  sort_key, join_pokemon_wiki, run_join, JoinStats)
- parser/utils/card_manager.py         (PokeCard rule tables and _parse_name)
- wiki_parser/core/wiki_info_extractor.py (WikiInfoExtractor)

Strings are modelled as Lean String / List Char; Python str.lower and the
regex character classes are modelled over ASCII (the corpus and all rule
tables are ASCII; non-ASCII characters are passed through unchanged, which
agrees with Python on every input exercised here).  Python regular
expressions are embedded as deterministic scanners that follow the
backtracking order of the original pattern; each scanner carries a comment
naming the pattern it embeds.  Python dicts are modelled as association
lists with last-assignment-wins lookup, and Python sets as lists with
membership-tested insertion, making the (unspecified) iteration order an
explicit parameter or a fixed insertion order.
-/

namespace Py

/-- Python str.isspace-relevant whitespace characters, i.e. the regex
class backslash-s over ASCII: space, tab, newline, carriage return,
vertical tab, form feed. -/
def isSpaceChar (c : Char) : Bool :=
  c = ' ' || c = '\t' || c = '\n' || c = '\r' || c = '\x0b' || c = '\x0c'

/-- ASCII lowercasing, the model of Python str.lower. -/
def asciiLower (c : Char) : Char :=
  if 'A' ≤ c ∧ c ≤ 'Z' then Char.ofNat (c.toNat + 32) else c

/-- ASCII uppercasing, the model of Python str.upper on one character. -/
def asciiUpper (c : Char) : Char :=
  if 'a' ≤ c ∧ c ≤ 'z' then Char.ofNat (c.toNat - 32) else c

def isAsciiAlpha (c : Char) : Bool :=
  ('a' ≤ c && c ≤ 'z') || ('A' ≤ c && c ≤ 'Z')

def isDigitChar (c : Char) : Bool :=
  '0' ≤ c && c ≤ '9'

/-- Characters kept by normalize: the regex class [a-z0-9]. -/
def isLowerAlnum (c : Char) : Bool :=
  ('a' ≤ c && c ≤ 'z') || isDigitChar c

/-- Model of the regex class backslash-w (ASCII): letters, digits, underscore. -/
def isWordChar (c : Char) : Bool :=
  isAsciiAlpha c || isDigitChar c || c = '_'

def lowerL (l : List Char) : List Char := l.map asciiLower

/-- Remove trailing whitespace. -/
def dropTrailWs (l : List Char) : List Char :=
  (l.reverse.dropWhile isSpaceChar).reverse

/-- Python str.strip with no argument: drop leading and trailing whitespace. -/
def stripL (l : List Char) : List Char :=
  dropTrailWs (l.dropWhile isSpaceChar)

/-- Helper for titleL: the Bool records whether the previous character was
an ASCII letter (a cased character). -/
def titleAux : Bool → List Char → List Char
  | _, [] => []
  | prevAlpha, c :: cs =>
      if isAsciiAlpha c then
        (if prevAlpha then asciiLower c else asciiUpper c) :: titleAux true cs
      else
        c :: titleAux false cs

/-- Python str.title over ASCII: uppercase each letter that follows a
non-letter, lowercase the other letters. -/
def titleL (l : List Char) : List Char := titleAux false l

/-- Python str.capitalize: first character uppercased, the rest lowercased. -/
def capitalizeL : List Char → List Char
  | [] => []
  | c :: cs => asciiUpper c :: cs.map asciiLower

/-- Case-insensitive literal prefix match; on success returns the input
with the matched prefix removed. -/
def dropPrefCI (pat s : List Char) : Option (List Char) :=
  if (lowerL pat).isPrefixOf (lowerL s) then some (s.drop pat.length) else none

/-- Case-sensitive literal prefix match; on success returns the rest. -/
def dropPrefLit (pat s : List Char) : Option (List Char) :=
  if pat.isPrefixOf s then some (s.drop pat.length) else none

/-- First case-insensitive occurrence of pat: returns the part before the
occurrence and the part after it. -/
def splitFirstCI (pat : List Char) : List Char → Option (List Char × List Char)
  | [] => if pat.isEmpty then some ([], []) else none
  | c :: cs =>
      match dropPrefCI pat (c :: cs) with
      | some rest => some ([], rest)
      | none =>
          match splitFirstCI pat cs with
          | some (pre, rest) => some (c :: pre, rest)
          | none => none

/-- First case-sensitive occurrence of pat: part before and part after. -/
def splitFirstLit (pat : List Char) : List Char → Option (List Char × List Char)
  | [] => if pat.isEmpty then some ([], []) else none
  | c :: cs =>
      match dropPrefLit pat (c :: cs) with
      | some rest => some ([], rest)
      | none =>
          match splitFirstLit pat cs with
          | some (pre, rest) => some (c :: pre, rest)
          | none => none

def containsCI (pat s : List Char) : Bool := (splitFirstCI pat s).isSome

def containsLit (pat s : List Char) : Bool := (splitFirstLit pat s).isSome

/-- One-or-more run of characters satisfying p (the regex plus on a
character class, which never backtracks when followed by a disjoint
class): returns the run and the rest, failing on an empty run. -/
def plusRun (p : Char → Bool) (s : List Char) : Option (List Char × List Char) :=
  let run := s.takeWhile p
  if run.isEmpty then none else some (run, s.drop run.length)

/-- Zero-or-more run of characters satisfying p: the run and the rest. -/
def starRun (p : Char → Bool) (s : List Char) : List Char × List Char :=
  (s.takeWhile p, s.drop (s.takeWhile p).length)

/-- Skip the regex star of whitespace. -/
def skipWs (s : List Char) : List Char := s.dropWhile isSpaceChar

/-- The regex plus of whitespace: requires at least one whitespace char. -/
def plusWs (s : List Char) : Option (List Char) :=
  match s with
  | c :: cs => if isSpaceChar c then some (cs.dropWhile isSpaceChar) else none
  | [] => none

/-- Python str.replace old -> new, all non-overlapping occurrences scanned
left to right.  fuel bounds the recursion; every step consumes at least
one input character (pat is never empty at any call site), so the fuel
inputLength + 1 used by replaceAll never runs out. -/
def replaceAllAux (pat rep : List Char) : Nat → List Char → List Char
  | 0, s => s
  | _ + 1, [] => []
  | fuel + 1, c :: cs =>
      match dropPrefLit pat (c :: cs) with
      | some rest => rep ++ replaceAllAux pat rep fuel rest
      | none => c :: replaceAllAux pat rep fuel cs

def replaceAll (pat rep s : List Char) : List Char :=
  replaceAllAux pat rep (s.length + 1) s

/-- re.sub of a pattern with the empty replacement: m tries to match at the
current position and on success returns the rest after the match.  Scans
left to right, skipping matched spans.  Same fuel discipline as
replaceAllAux: every match at these call sites consumes at least one
character. -/
def subAllAux (m : List Char → Option (List Char)) : Nat → List Char → List Char
  | 0, s => s
  | _ + 1, [] => []
  | fuel + 1, c :: cs =>
      match m (c :: cs) with
      | some rest => subAllAux m fuel rest
      | none => c :: subAllAux m fuel cs

def subAllM (m : List Char → Option (List Char)) (s : List Char) : List Char :=
  subAllAux m (s.length + 1) s

/-- re.sub with a replacement computed from the match (used for the wiki
link pattern whose replacement is capture group 1). -/
def subAllRAux (m : List Char → Option (List Char × List Char)) :
    Nat → List Char → List Char
  | 0, s => s
  | _ + 1, [] => []
  | fuel + 1, c :: cs =>
      match m (c :: cs) with
      | some (rep, rest) => rep ++ subAllRAux m fuel rest
      | none => c :: subAllRAux m fuel cs

def subAllR (m : List Char → Option (List Char × List Char)) (s : List Char) :
    List Char :=
  subAllRAux m (s.length + 1) s

/-- re.search: leftmost position where m matches; returns the match value. -/
def scanFirst (m : List Char → Option α) : List Char → Option α
  | [] => m []
  | c :: cs =>
      match m (c :: cs) with
      | some r => some r
      | none => scanFirst m cs

/-- re.findall: all non-overlapping matches left to right, each match value
collected; m returns (capture, rest-after-match).  Fuel as above. -/
def findAllAux (m : List Char → Option (List Char × List Char)) :
    Nat → List Char → List (List Char)
  | 0, _ => []
  | _ + 1, [] => []
  | fuel + 1, c :: cs =>
      match m (c :: cs) with
      | some (cap, rest) => cap :: findAllAux m fuel rest
      | none => findAllAux m fuel cs

def findAllM (m : List Char → Option (List Char × List Char)) (s : List Char) :
    List (List Char) :=
  findAllAux m (s.length + 1) s

/-- Python str.split with no argument: words separated by whitespace runs. -/
def splitWsAux : Nat → List Char → List (List Char)
  | 0, _ => []
  | _ + 1, [] => []
  | fuel + 1, c :: cs =>
      if isSpaceChar c then splitWsAux fuel cs
      else
        let w := (c :: cs).takeWhile (fun d => !isSpaceChar d)
        w :: splitWsAux fuel ((c :: cs).drop w.length)

def splitWs (s : List Char) : List (List Char) := splitWsAux (s.length + 1) s

/-- Python " ".join of word lists. -/
def joinSpace : List (List Char) → List Char
  | [] => []
  | [w] => w
  | w :: ws => w ++ ' ' :: joinSpace ws

/-- Python str.split(sep) for a non-empty separator: pieces between
non-overlapping occurrences scanned left to right. -/
def splitOnSeqAux (sep : List Char) : Nat → List Char → List (List Char)
  | 0, s => [s]
  | _ + 1, [] => [[]]
  | fuel + 1, c :: cs =>
      match dropPrefLit sep (c :: cs) with
      | some rest => [] :: splitOnSeqAux sep fuel rest
      | none =>
          match splitOnSeqAux sep fuel cs with
          | [] => [[c]]
          | piece :: more => (c :: piece) :: more

def splitOnSeq (sep s : List Char) : List (List Char) :=
  splitOnSeqAux sep (s.length + 1) s

/-- Python str.split(ch) for a one-character separator. -/
def splitOnChar (ch : Char) (s : List Char) : List (List Char) :=
  splitOnSeq [ch] s

/-- list(dict.fromkeys(xs)): deduplicate keeping first occurrences. -/
def dedupFirst [DecidableEq α] (l : List α) : List α :=
  l.foldl (fun acc x => if x ∈ acc then acc else acc ++ [x]) []

/-- Ordered alternation over a list of entry points (the regex bar):
the first alternative whose continuation succeeds wins. -/
def firstSome (l : List α) (f : α → Option β) : Option β := l.findSome? f

end Py

namespace Join

open Py

/-- join_cards_wiki.PREFIXES: game-mechanic name decorations stripped from
the front by extract_base_pokemon. -/
def PREFIXES : List String :=
  ["detective", "dark", "light", "shiny", "shadow", "team",
   "alolan", "galarian", "hisuian", "paldean",
   "primal", "mega", "gigantamax", "origin forme", "radiant"]

/-- join_cards_wiki.SUFFIXES: game-mechanic name decorations stripped from
the back by extract_base_pokemon. -/
def SUFFIXES : List String :=
  ["v", "vmax", "vstar", "ex", "gx", "lv.x", "lvx", "lv x",
   "prime", "legend", "break", "tag team", "star",
   "g", "gl", "fb", "e4", "c", "4", "sp", "delta species", "crystal type"]

/-- join_cards_wiki.normalize: lowercase, then delete every character that
the regex class a-z0-9 rejects; the empty string maps to itself. -/
def normalize (name : String) : String :=
  if name = ("") then ("")
  else String.mk ((Py.lowerL name.data).filter Py.isLowerAlnum)

/-- Python str slicing helpers used by extract_base_pokemon. -/
def strDrop (s : String) (n : Nat) : String := String.mk (s.data.drop n)

def strDropRight (s : String) (n : Nat) : String :=
  String.mk (s.data.take (s.data.length - n))

def pyLower (s : String) : String := String.mk (Py.lowerL s.data)

def pyStrip (s : String) : String := String.mk (Py.stripL s.data)

def pyTitle (s : String) : String := String.mk (Py.titleL s.data)

/-- Python str.startswith. -/
def pyStartsWith (s pat : String) : Bool := pat.data.isPrefixOf s.data

/-- Python str.endswith. -/
def pyEndsWith (s pat : String) : Bool := pat.data.isSuffixOf s.data

/-- join_cards_wiki.extract_base_pokemon: lowercase and strip the name,
strip the first matching PREFIXES entry followed by a space (the loop
breaks after the first match), then the first matching SUFFIXES entry
preceded by a space, and title-case the remainder; an input that lowers
and strips to the empty string is returned unchanged. -/
def extract_base_pokemon (name : String) : String :=
  if name = ("") then ("")
  else
    let nl0 := pyStrip (pyLower name)
    let nl1 :=
      match PREFIXES.find? (fun p => pyStartsWith nl0 (p ++ (" "))) with
      | some p => pyStrip (strDrop nl0 p.length)
      | none => nl0
    let nl2 :=
      match SUFFIXES.find? (fun sfx => pyEndsWith nl1 ((" ") ++ sfx)) with
      | some sfx => pyStrip (strDropRight nl1 sfx.length)
      | none => nl1
    if nl2 = ("") then name else pyTitle nl2

/-- join_pokemon_wiki.sort_key: the six-tier priority of a candidate title
for an entity whose lowercased base name is baseLower and whose lowercased
full name is pokemonLower.  The base-name tiers 0, 1 and 4 are evaluated
only when the two names differ. -/
def sortKey (baseLower pokemonLower title : String) : Nat :=
  let tl := pyLower title
  if baseLower ≠ pokemonLower ∧ tl = baseLower then 0
  else if baseLower ≠ pokemonLower ∧
      (tl = baseLower ++ (" (pokémon)") ∨ tl = baseLower ++ (" (pokemon)")) then 1
  else if tl = pokemonLower then 2
  else if tl = pokemonLower ++ (" (pokémon)") ∨ tl = pokemonLower ++ (" (pokemon)") then 3
  else if baseLower ≠ pokemonLower ∧ pyStartsWith tl baseLower then 4
  else if pyStartsWith tl pokemonLower then 5
  else 6

/-- The sort key used for the candidates of the entity named pokemonName,
with baseLower and pokemonLower derived exactly as in join_pokemon_wiki. -/
def sortKeyFor (pokemonName title : String) : Nat :=
  sortKey (pyLower (extract_base_pokemon pokemonName)) (pyLower pokemonName) title

/-- sorted(matched_wikis, key=sort_key): Python sorted is a stable sort by
the key, modelled by the stable insertion sort on the non-strict key
order; matchedWikis lists the candidate set in its iteration order. -/
def rankCandidates (pokemonName : String) (matchedWikis : List String) : List String :=
  List.insertionSort
    (fun a b => sortKeyFor pokemonName a ≤ sortKeyFor pokemonName b) matchedWikis

/-- Lexicographic strict order on strings by character code, the model of
Python string comparison. -/
def strLtB : List Char → List Char → Bool
  | [], [] => false
  | [], _ :: _ => true
  | _ :: _, [] => false
  | a :: as_, b :: bs =>
      if a.toNat < b.toNat then true
      else if b.toNat < a.toNat then false
      else strLtB as_ bs

def strLeB (a b : String) : Bool := !(strLtB b.data a.data)

end Join

namespace Cards

open Py Join

/-- card_manager.PokeCard.SUFFIX_RARITIES.  The source lists the entries
"Gamestop" and "V-Union" with no comma between them, so Python string
literal concatenation fuses them into the single entry "GamestopV-Union";
the table is embedded as Python actually evaluates it. -/
def SUFFIX_RARITIES : List String :=
  ["Holiday Calendar", "Reverse Holo", "Delta Species", "Secret Rare",
   "Rainbow Rare", "Gold Secret", "Ultra Rare", "Hyper Rare", "Holo",
   "VMAX", "VSTAR", "MEGA", "BREAK", "Prime", "LEGEND", "Shining",
   "Radiant", "Lv.X", "Gold Star", "Prism Star", "Star", "GX", "EX",
   "ex", "V", "Secret", "GamestopV-Union", "Prelease"]

/-- card_manager.PokeCard.PREFIX_RARITIES. -/
def PREFIX_RARITIES : List String :=
  ["Full Art", "Secret", "Rainbow", "Future"]

/-- card_manager.PokeCard.SET_SUFFIXES. -/
def SET_SUFFIXES : List String :=
  ["1st Edition", "Cracked Ice", "Shadowless", "Prerelease", "Unlimited",
   "Holofoil", "Cosmos", "Stamped", "Staff"]

/-- card_manager.PokeCard.FORM_PREFIXES. -/
def FORM_PREFIXES : List String :=
  ["Team Magma\x27s", "Team Aqua\x27s", "Origin Forme", "Altered Forme",
   "Therian Forme", "Incarnate Forme", "Single Strike", "Rapid Strike",
   "Sky Forme", "Land Forme", "Rocket\x27s", "Gigantamax", "Galarian",
   "Hisuian", "Paldean", "Alolan", "Shadow", "Primal", "Light", "Dark",
   "Mega", "Basic"]

/-- A leading-rule match: re.search of the anchored pattern word
followed by one-or-more whitespace, case-insensitively. -/
def startMatch (word name : String) : Bool :=
  (Py.lowerL word.data).isPrefixOf (Py.lowerL name.data) &&
    (match name.data.drop word.data.length with
     | c :: _ => Py.isSpaceChar c
     | [] => false)

/-- Removing a matched leading rule: re.sub deletes the word and the
whitespace run after it, and _remove_pattern strips the result; together
this is stripping the name with the word chopped off the front. -/
def removeStart (word name : String) : String :=
  pyStrip (strDrop name word.data.length)

/-- A trailing-rule match: re.search of one-or-more whitespace followed by
the anchored pattern word at the end, case-insensitively. -/
def endMatch (word name : String) : Bool :=
  (Py.lowerL word.data).isSuffixOf (Py.lowerL name.data) &&
    (match (name.data.take (name.data.length - word.data.length)).getLast? with
     | some c => Py.isSpaceChar c
     | none => false)

/-- Removing a matched trailing rule: re.sub deletes the whitespace run
and the word at the end, and _remove_pattern strips the result. -/
def removeEnd (word name : String) : String :=
  pyStrip (strDropRight name word.data.length)

/-- PokeCard._find_and_remove_rarity: the ordered prefix-rarity table is
tried first and its first match wins; only if none matches is the ordered
suffix-rarity table tried, its first match winning.  The recorded rarity
is the canonical table entry. -/
def findAndRemoveRarity (name : String) : String × Option String :=
  match PREFIX_RARITIES.find? (fun r => startMatch r name) with
  | some r => (removeStart r name, some r)
  | none =>
      match SUFFIX_RARITIES.find? (fun r => endMatch r name) with
      | some r => (removeEnd r name, some r)
      | none => (name, none)

/-- PokeCard._remove_set_suffixes: every entry of the ordered set-suffix
table is applied in turn; each entry that matches at the end of the
current name is stripped (re.sub with no match leaves the name unchanged). -/
def removeSetSuffixes (name : String) : String :=
  SET_SUFFIXES.foldl (fun n sfx => if endMatch sfx n then removeEnd sfx n else n) name

/-- The form extraction step of PokeCard (_extract_form_ method): the first
matching entry of the ordered form table is stripped and recorded (as the canonical table entry). -/
def extractFormPfx (name : String) : Option String × String :=
  match FORM_PREFIXES.find? (fun p => startMatch p name) with
  | some p => (some p, removeStart p name)
  | none => (none, name)

/-- Model of the stdlib html.unescape restricted to the basic named
entities; card names in this corpus contain no other entities. -/
def htmlUnescape (s : String) : String :=
  String.mk
    ([(("&lt;"), ("<")), (("&gt;"), (">")), (("&quot;"), ("\"")),
      (("&#39;"), ("\x27")), (("&apos;"), ("\x27")), (("&nbsp;"), (" ")),
      (("&amp;"), ("&"))].foldl
      (fun t pr => Py.replaceAll pr.1.data pr.2.data t) s.data)

/-- PokeCard._parse_name, the decompose-card-name operation: an empty name
passes through; otherwise the name is unescaped and stripped, the rarity
rule runs, then the set-suffix rule, then the form prefix rule, and the
triple (form prefix, base name, rarity) is returned. -/
def parseName (name : String) : Option String × String × Option String :=
  if name = ("") then (none, name, none)
  else
    let n0 := pyStrip (htmlUnescape name)
    let pr1 := findAndRemoveRarity n0
    let n2 := removeSetSuffixes pr1.1
    let pr2 := extractFormPfx n2
    (pr2.1, pr2.2, pr1.2)

end Cards

namespace WikiExtract

open Py

/-- The HTML entity table of _clean_wiki_markup, replaced in dict
(insertion) order before the markup passes. -/
def htmlEntityPairs : List (String × String) :=
  [(("&lt;"), ("<")), (("&gt;"), (">")), (("&amp;"), ("&")),
   (("&quot;"), ("\"")), (("&apos;"), ("\x27")), (("&nbsp;"), (" ")),
   (("&#39;"), ("\x27")), (("&#34;"), ("\"")),
   (("&ndash;"), ("-")), (("&mdash;"), ("-")), (("&hellip;"), ("...")),
   (("&eacute;"), ("é")), (("&Eacute;"), ("É"))]

/-- Matcher for the ref-pair pattern: literal open-angle ref (ignoring
case), a run of non-close-angle characters, a close angle, then the lazy
dot-star up to the first close tag slash ref (DOTALL, ignoring case).
Returns the rest after the close tag. -/
def refPairM (s : List Char) : Option (List Char) := do
  let s1 ← dropPrefCI ("<ref").data s
  let r := starRun (fun c => c ≠ '>') s1
  match r.2 with
  | '>' :: s3 => (splitFirstCI ("</ref>").data s3).map (·.2)
  | _ => none

/-- Matcher for the self-closing ref pattern: open-angle ref, a run of
non-close-angle characters that must end with a slash, then the close
angle.  The greedy class backtracks exactly one step in the original
pattern, which is what the end-with-slash condition captures. -/
def refSelfM (s : List Char) : Option (List Char) := do
  let s1 ← dropPrefCI ("<ref").data s
  let r := starRun (fun c => c ≠ '>') s1
  match r.2 with
  | '>' :: s3 => if r.1.getLast? = some ('/') then some s3 else none
  | _ => none

/-- Matcher for the quoted named self-closing ref pattern: open-angle ref,
whitespace, name, optional whitespace, equals, optional whitespace, a
quote character, a run free of both quote characters, a quote character,
optional whitespace, slash, close angle. -/
def refNameQuotedM (s : List Char) : Option (List Char) := do
  let s1 ← dropPrefCI ("<ref").data s
  let s2 ← plusWs s1
  let s3 ← dropPrefCI ("name").data s2
  let s4 ← dropPrefLit ("=").data (skipWs s3)
  match skipWs s4 with
  | q :: s5 =>
      if q = '"' ∨ q = '\x27' then
        let r := starRun (fun c => c ≠ '"' && c ≠ '\x27') s5
        match r.2 with
        | q2 :: s6 =>
            if q2 = '"' ∨ q2 = '\x27' then
              dropPrefLit ("/>").data (skipWs s6)
            else none
        | [] => none
      else none
  | [] => none

/-- Matcher for the bare named self-closing ref pattern: open-angle ref,
whitespace, name, optional whitespace, equals, optional whitespace, a
nonempty run free of slash, close angle and whitespace, optional
whitespace, slash, close angle. -/
def refNameBareM (s : List Char) : Option (List Char) := do
  let s1 ← dropPrefCI ("<ref").data s
  let s2 ← plusWs s1
  let s3 ← dropPrefCI ("name").data s2
  let s4 ← dropPrefLit ("=").data (skipWs s3)
  let r ← plusRun (fun c => c ≠ '/' && c ≠ '>' && !isSpaceChar c) (skipWs s4)
  dropPrefLit ("/>").data (skipWs r.2)

/-- Matcher for the generic tag pattern: open angle, a nonempty run of
non-close-angle characters, close angle (the optional slash before the
close angle in the source pattern is subsumed by the run). -/
def tagM (s : List Char) : Option (List Char) := do
  let s1 ← dropPrefLit ("<").data s
  let r ← plusRun (fun c => c ≠ '>') s1
  dropPrefLit (">").data r.2

/-- Matcher for the wiki link pattern with display-text replacement: after
the double open bracket, the content runs to the first close bracket and a
double close bracket must follow; when the content has a pipe and a
nonempty part after the first pipe, the optional pipe group of the
original pattern matches and the capture is that part, otherwise the
capture is the whole content.  Returns (replacement, rest). -/
def linkM (s : List Char) : Option (List Char × List Char) := do
  let s1 ← dropPrefLit ("[[").data s
  let r := starRun (fun c => c ≠ ']') s1
  if r.1.isEmpty then none
  else
    let rest ← dropPrefLit ("]]").data r.2
    match splitFirstLit [('|')] r.1 with
    | some (_, suf) => if suf.isEmpty then some (r.1, rest) else some (suf, rest)
    | none => some (r.1, rest)

/-- Matcher for the innermost-template pattern: double open brace, a run
free of both brace characters, double close brace. -/
def templateM (s : List Char) : Option (List Char) := do
  let s1 ← dropPrefLit [('\x7b'), ('\x7b')] s
  let r := starRun (fun c => c ≠ '\x7b' && c ≠ '\x7d') s1
  dropPrefLit [('\x7d'), ('\x7d')] r.2

/-- The bounded template-removal loop of _clean_wiki_markup: up to five
passes, stopping early when no double open brace remains. -/
def templateLoop : Nat → List Char → List Char
  | 0, t => t
  | n + 1, t =>
      if containsLit [('\x7b'), ('\x7b')] t then
        templateLoop n (subAllM templateM t)
      else t

/-- Matcher for the bold/italic markup pattern: a run of two to five
apostrophes, greedy. -/
def quoteRunM (s : List Char) : Option (List Char) :=
  let r := starRun (fun c => c = '\x27') s
  if r.1.length ≥ 2 then some (s.drop (min r.1.length 5)) else none

/-- Matcher removing a double open or double close square bracket. -/
def dblBracketM (s : List Char) : Option (List Char) :=
  (dropPrefLit ("[[").data s).orElse (fun _ => dropPrefLit ("]]").data s)

/-- Matcher removing a double open or double close brace. -/
def dblBraceM (s : List Char) : Option (List Char) :=
  (dropPrefLit [('\x7b'), ('\x7b')] s).orElse
    (fun _ => dropPrefLit [('\x7d'), ('\x7d')] s)

/-- Matcher removing a single square bracket. -/
def sglBracketM (s : List Char) : Option (List Char) :=
  (dropPrefLit ("[").data s).orElse (fun _ => dropPrefLit ("]").data s)

/-- WikiInfoExtractor._clean_wiki_markup: entity decoding, the four ref
substitutions, generic tag removal, link display-text substitution, the
bounded template loop, quote-run removal, leftover bracket and brace
removal, and whitespace normalisation via split and join, ending with a
strip. -/
def cleanWikiMarkup (t : List Char) : List Char :=
  if t.isEmpty then []
  else
    let t := htmlEntityPairs.foldl (fun u pr => replaceAll pr.1.data pr.2.data u) t
    let t := subAllM refPairM t
    let t := subAllM refSelfM t
    let t := subAllM refNameQuotedM t
    let t := subAllM refNameBareM t
    let t := subAllM tagM t
    let t := subAllR linkM t
    let t := templateLoop 5 t
    let t := subAllM quoteRunM t
    let t := subAllM dblBracketM t
    let t := subAllM dblBraceM t
    let t := subAllM sglBracketM t
    stripL (joinSpace (splitWs t))

end WikiExtract

namespace WikiExtract

open Py

/-- The shared head of both infobox patterns: pipe, optional whitespace,
the field name (ignoring case; a space inside the field name matches one
literal space), optional whitespace, equals, optional whitespace.
Returns the rest at the start of the value. -/
def fieldHeadM (field : List Char) (s : List Char) : Option (List Char) := do
  let s1 ← dropPrefLit ("|").data s
  let s2 ← dropPrefCI field (skipWs s1)
  let s3 ← dropPrefLit ("=").data (skipWs s2)
  some (skipWs s3)

/-- Matcher for the first infobox pattern: the shared head, then a capture
of one or more characters that are not pipe, newline or close brace. -/
def fieldPlainM (field : List Char) (s : List Char) : Option (List Char) := do
  let s4 ← fieldHeadM field s
  let r ← plusRun (fun c => c ≠ '|' && c ≠ '\n' && c ≠ '\x7d') s4
  some r.1

/-- Matcher for the second infobox pattern: the shared head, a double open
bracket, a capture of one or more non-close-bracket characters, and a
double close bracket. -/
def fieldLinkM (field : List Char) (s : List Char) : Option (List Char) := do
  let s4 ← fieldHeadM field s
  let s5 ← dropPrefLit ("[[").data s4
  let r ← plusRun (fun c => c ≠ ']') s5
  let _ ← dropPrefLit ("]]").data r.2
  some r.1

/-- WikiInfoExtractor.extract_infobox_field: the two patterns are tried in
order; for each, only the leftmost match is taken, its capture is stripped
and cleaned, and a nonempty cleaned value is returned, otherwise the next
pattern is tried. -/
def extractInfoboxField (field : String) (text : List Char) : Option (List Char) :=
  match scanFirst (fieldPlainM field.data) text with
  | some cap =>
      let v := cleanWikiMarkup (stripL cap)
      if v.isEmpty then
        match scanFirst (fieldLinkM field.data) text with
        | some cap2 =>
            let v2 := cleanWikiMarkup (stripL cap2)
            if v2.isEmpty then none else some v2
        | none => none
      else some v
  | none =>
      match scanFirst (fieldLinkM field.data) text with
      | some cap2 =>
          let v2 := cleanWikiMarkup (stripL cap2)
          if v2.isEmpty then none else some v2
      | none => none

/-- WikiInfoExtractor.POKEMON_TYPES (a set; only membership is used). -/
def POKEMON_TYPES : List String :=
  ["normal", "fire", "water", "electric", "grass", "ice", "fighting",
   "poison", "ground", "flying", "psychic", "bug", "rock", "ghost",
   "dragon", "dark", "steel", "fairy"]

/-- Matcher for the type-phrase pattern: a nonempty word-character run,
a hyphen, the literal type, whitespace, then Pok, an e of either accent
and case, and mon (all ignoring case).  Capture is the word run. -/
def typePhraseM (s : List Char) : Option (List Char × List Char) := do
  let r ← plusRun isWordChar s
  let s2 ← dropPrefCI ("-type").data r.2
  let s3 ← plusWs s2
  let s4 ← dropPrefCI ("pok").data s3
  match s4 with
  | c :: s5 =>
      if c = 'e' ∨ c = 'E' ∨ c = 'é' ∨ c = 'É' then
        (dropPrefCI ("mon").data s5).map (fun s6 => (r.1, s6))
      else none
  | [] => none

/-- WikiInfoExtractor.extract_pokemon_type: the three infobox fields in
order, each validated against POKEMON_TYPES and capitalised; only when
that yields nothing, every type-phrase match in the text is validated and
collected; duplicates are removed keeping first occurrences. -/
def extractPokemonType (text : List Char) : List (List Char) :=
  let fromFields :=
    [("type"), ("type1"), ("type2")].foldl
      (fun acc f =>
        match extractInfoboxField f text with
        | some v =>
            if String.mk (lowerL v) ∈ POKEMON_TYPES then acc ++ [capitalizeL v]
            else acc
        | none => acc) []
  let types :=
    if fromFields.isEmpty then
      (findAllM typePhraseM text).foldl
        (fun acc m =>
          if String.mk (lowerL m) ∈ POKEMON_TYPES then acc ++ [capitalizeL m]
          else acc) []
    else fromFields
  dedupFirst types

/-- The literal Pok-e-mon with either accent and any case, as in the
patterns Pok[eé]mon with the ignore-case flag. -/
def pokemonLitM (s : List Char) : Option (List Char) := do
  let s1 ← dropPrefCI ("pok").data s
  match s1 with
  | c :: s2 =>
      if c = 'e' ∨ c = 'E' ∨ c = 'é' ∨ c = 'É' then dropPrefCI ("mon").data s2
      else none
  | [] => none

/-- The input characters consumed between a position s and a later rest,
used to recover capture groups that span whitespace runs. -/
def sliceTo (s rest : List Char) : List Char := s.take (s.length - rest.length)

/-- Matcher for the species-phrase pattern: the literal the, whitespace,
a capture of one word optionally followed by whitespace and a second word,
whitespace, then the Pokemon literal.  The optional second word is tried
first, as the greedy optional group does, falling back to the one-word
form when the rest of the pattern fails. -/
def speciesPhraseM (s : List Char) : Option (List Char × List Char) :=
  (dropPrefCI ("the").data s).bind fun s1 =>
  (plusWs s1).bind fun s2 =>
  (plusRun isWordChar s2).bind fun w1r =>
  let two : Option (List Char × List Char) :=
    (plusWs w1r.2).bind fun s3 =>
    (plusRun isWordChar s3).bind fun w2r =>
    (plusWs w2r.2).bind fun s4 =>
    (pokemonLitM s4).map fun s5 => (sliceTo s2 w2r.2, s5)
  match two with
  | some r => some r
  | none =>
      (plusWs w1r.2).bind fun s4 =>
      (pokemonLitM s4).map fun s5 => (w1r.1, s5)

/-- WikiInfoExtractor.extract_species: the species infobox field, else the
first species-phrase match with the literal Pokémon word appended. -/
def extractSpecies (text : List Char) : Option (List Char) :=
  match extractInfoboxField ("species") text with
  | some v => some v
  | none =>
      (scanFirst speciesPhraseM text).map (fun r => r.1 ++ (" Pokémon").data)

end WikiExtract

namespace WikiExtract

open Py

/-- The core of the generation pattern: the literal Generation (ignoring
case), whitespace, then a capture of a roman-numeral run (the class IVX,
which under the ignore-case flag also admits the lowercase letters) or,
failing that, a digit run. -/
def generationCoreM (s : List Char) : Option (List Char × List Char) :=
  (dropPrefCI ("generation").data s).bind fun s1 =>
  (plusWs s1).bind fun s2 =>
  match plusRun (fun c => c = 'I' || c = 'V' || c = 'X' ||
      c = 'i' || c = 'v' || c = 'x') s2 with
  | some r => some r
  | none => plusRun isDigitChar s2

/-- Matcher for the generation pattern: the optional introduced-in part is
tried first (it starts the match earlier), then the bare core. -/
def generationM (s : List Char) : Option (List Char × List Char) :=
  match
    (dropPrefCI ("introduced").data s).bind fun s1 =>
    (plusWs s1).bind fun s2 =>
    (dropPrefCI ("in").data s2).bind fun s3 =>
    (plusWs s3).bind fun s4 => generationCoreM s4
  with
  | some r => some r
  | none => generationCoreM s

/-- WikiInfoExtractor.extract_generation. -/
def extractGeneration (text : List Char) : Option (List Char) :=
  match extractInfoboxField ("generation") text with
  | some v => some v
  | none => (scanFirst generationM text).map (·.1)

/-- WikiInfoExtractor.extract_abilities: the five ability infobox fields
in order, keeping nonempty values whose lowercase form is neither none nor
n/a, deduplicated keeping first occurrences. -/
def extractAbilities (text : List Char) : List (List Char) :=
  dedupFirst
    ([("ability"), ("ability1"), ("ability2"), ("abilityd"),
      ("hidden_ability")].foldl
      (fun acc f =>
        match extractInfoboxField f text with
        | some v =>
            if v ≠ [] ∧ String.mk (lowerL v) ≠ ("none") ∧
                String.mk (lowerL v) ≠ ("n/a") then acc ++ [v]
            else acc
        | none => acc) [])

/-- Matcher for the evolves-from/into patterns: the literal evolve, an
optional s, whitespace, the link word (from or into), whitespace, a double
open bracket, a capture of one or more non-close-bracket characters, and
a double close bracket. -/
def evolvesLinkM (linkWord : String) (s : List Char) : Option (List Char × List Char) :=
  (dropPrefCI ("evolve").data s).bind fun s1 =>
  let s2 :=
    match dropPrefCI ("s").data s1 with
    | some s1s => if (plusWs s1s).isSome then s1s else s1
    | none => s1
  (plusWs s2).bind fun s3 =>
  (dropPrefCI linkWord.data s3).bind fun s4 =>
  (plusWs s4).bind fun s5 =>
  (dropPrefLit ("[[").data s5).bind fun s6 =>
  (plusRun (fun c => c ≠ ']') s6).bind fun r =>
  (dropPrefLit ("]]").data r.2).map fun s7 => (r.1, s7)

/-- group.split(pipe)[-1]: the last pipe-separated segment of a link
target. -/
def lastPipeSegment (l : List Char) : List Char :=
  (splitOnChar ('|') l).getLastD l

/-- WikiInfoExtractor.extract_evolution: the two infobox fields, each with
its text fallback pattern applied only when the field is missing. -/
def extractEvolution (text : List Char) : Option (List Char) × Option (List Char) :=
  let ef :=
    match extractInfoboxField ("evolvesfrom") text with
    | some v => some v
    | none => (scanFirst (evolvesLinkM ("from")) text).map (fun r => lastPipeSegment r.1)
  let et :=
    match extractInfoboxField ("evolvesto") text with
    | some v => some v
    | none => (scanFirst (evolvesLinkM ("into")) text).map (fun r => lastPipeSegment r.1)
  (ef, et)

/-- WikiInfoExtractor.extract_physical_stats: height from the height or
metricheight fields, weight from the weight or metricweight fields. -/
def extractPhysicalStats (text : List Char) : Option (List Char) × Option (List Char) :=
  ((extractInfoboxField ("height") text).orElse
     (fun _ => extractInfoboxField ("metricheight") text),
   (extractInfoboxField ("weight") text).orElse
     (fun _ => extractInfoboxField ("metricweight") text))

/-- Matcher for the Japanese-name pattern (no ignore-case flag): the
literal open-paren Japanese colon, optional whitespace, a capture of one
or more non-close-paren characters, close paren; the capture is stripped
by the caller. -/
def japaneseM (s : List Char) : Option (List Char × List Char) :=
  (dropPrefLit ("(Japanese:").data s).bind fun s1 =>
  (plusRun (fun c => c ≠ ')') (skipWs s1)).bind fun r =>
  (dropPrefLit (")").data r.2).map fun s2 => (r.1, s2)

/-- WikiInfoExtractor.extract_japanese_name. -/
def extractJapaneseName (text : List Char) : Option (List Char) :=
  match extractInfoboxField ("jname") text with
  | some v => some v
  | none => (scanFirst japaneseM text).map (fun r => stripL r.1)

/-- Matcher for the dex-number pattern: a hash sign then a greedy three-
or four-digit capture. -/
def dexNumberM (s : List Char) : Option (List Char × List Char) :=
  (dropPrefLit ("#").data s).bind fun s1 =>
  let r := starRun isDigitChar s1
  if r.1.length ≥ 3 then
    some (r.1.take 4, s1.drop (min r.1.length 4))
  else none

/-- WikiInfoExtractor.extract_pokedex_number: the ndex field, the number
field, then the first dex-number match. -/
def extractPokedexNumber (text : List Char) : Option (List Char) :=
  match extractInfoboxField ("ndex") text with
  | some v => some v
  | none =>
      match extractInfoboxField ("number") text with
      | some v => some v
      | none => (scanFirst dexNumberM text).map (·.1)

end WikiExtract

namespace WikiExtract

open Py

/-- The game-title words of the first-game capture pattern. -/
def gameWords : List String :=
  ["Red", "Blue", "Green", "Yellow", "Gold", "Silver", "Crystal", "Ruby",
   "Sapphire", "Diamond", "Pearl", "Black", "White", "Sun", "Moon",
   "Sword", "Shield", "Scarlet", "Violet"]

/-- The capture class of the first-game patterns: everything except double
quote, apostrophe, comma and period. -/
def notGameDelim (c : Char) : Bool :=
  c ≠ '"' && c ≠ '\x27' && c ≠ ',' && c ≠ '.'

/-- The greedy plus-then-game-word-then-star capture: the whole maximal
delimiter-free run is captured, provided some game word occurs inside it
at offset at least one (the backtracking of the greedy plus). -/
def gameWordRun (s : List Char) : Option (List Char × List Char) :=
  (plusRun notGameDelim s).bind fun r =>
  match r.1 with
  | _ :: tl => if gameWords.any (fun w => containsCI w.data tl) then some r else none
  | [] => none

/-- An optional word followed by mandatory whitespace, as in the groups
the-whitespace and It-whitespace; none means the group is skipped. -/
def optWordWs (w : Option String) (s : List Char) : Option (List Char) :=
  match w with
  | some v => (dropPrefCI v.data s).bind plusWs
  | none => some s

/-- The optional video-games group: video, whitespace, game, an optional
s, then whitespace. -/
def optVideoGames (w : Option Unit) (s : List Char) : Option (List Char) :=
  match w with
  | some _ =>
      (dropPrefCI ("video").data s).bind fun s1 =>
      (plusWs s1).bind fun s2 =>
      (dropPrefCI ("game").data s2).bind fun s3 =>
      let s4 := (dropPrefCI ("s").data s3).getD s3
      plusWs s4
  | none => some s

/-- The optional quote character, consumed greedily when present. -/
def optQuote (s : List Char) : List Char :=
  match s with
  | c :: cs => if c = '"' ∨ c = '\x27' then cs else s
  | [] => s

/-- Matcher for first-game pattern one: first, whitespace, appear with an
optional ed or s, whitespace, in, whitespace, the optional the and
video-games groups in greedy order, optional quote, then the game-word
capture run. -/
def firstGameP1M (s : List Char) : Option (List Char × List Char) :=
  (dropPrefCI ("first").data s).bind fun s1 =>
  (plusWs s1).bind fun s2 =>
  (dropPrefCI ("appear").data s2).bind fun s3 =>
  let s4 := ((dropPrefCI ("ed").data s3).orElse
    (fun _ => dropPrefCI ("s").data s3)).getD s3
  (plusWs s4).bind fun s5 =>
  (dropPrefCI ("in").data s5).bind fun s6 =>
  (plusWs s6).bind fun s7 =>
  firstSome [(some ("the"), some ()), (some ("the"), none),
             (none, some ()), (none, none)] fun combo =>
    (optWordWs combo.1 s7).bind fun s8 =>
    (optVideoGames combo.2 s8).bind fun s9 =>
    gameWordRun (optQuote s9)

/-- Matcher for first-game pattern two: introduced, whitespace, in,
whitespace, the optional groups, optional quote, the Pokemon literal,
whitespace, then a capture of a nonempty delimiter-free run. -/
def firstGameP2M (s : List Char) : Option (List Char × List Char) :=
  (dropPrefCI ("introduced").data s).bind fun s1 =>
  (plusWs s1).bind fun s2 =>
  (dropPrefCI ("in").data s2).bind fun s3 =>
  (plusWs s3).bind fun s4 =>
  firstSome [(some ("the"), some ()), (some ("the"), none),
             (none, some ()), (none, none)] fun combo =>
    (optWordWs combo.1 s4).bind fun s5 =>
    (optVideoGames combo.2 s5).bind fun s6 =>
    (pokemonLitM (optQuote s6)).bind fun s7 =>
    (plusWs s7).bind fun s8 =>
    plusRun notGameDelim s8

/-- Matcher for first-game pattern three: debut with an optional ed,
whitespace, in, whitespace, optional quote, the Pokemon literal,
whitespace, then a capture of a nonempty delimiter-free run. -/
def firstGameP3M (s : List Char) : Option (List Char × List Char) :=
  (dropPrefCI ("debut").data s).bind fun s1 =>
  let s2 := (dropPrefCI ("ed").data s1).getD s1
  (plusWs s2).bind fun s3 =>
  (dropPrefCI ("in").data s3).bind fun s4 =>
  (pokemonLitM (optQuote s4)).bind fun s5 =>
  (plusWs s5).bind fun s6 =>
  plusRun notGameDelim s6

/-- The paired-version phrases of first-game pattern four. -/
def gamePairs : List (String × String) :=
  [(("Red"), ("Blue")), (("Gold"), ("Silver")), (("Ruby"), ("Sapphire")),
   (("Diamond"), ("Pearl")), (("Black"), ("White")), (("Sun"), ("Moon")),
   (("Sword"), ("Shield")), (("Scarlet"), ("Violet"))]

/-- Matcher for first-game pattern four: the Pokemon literal, whitespace,
then one of the paired-version phrases X whitespace and whitespace Y; the
capture is the phrase as it appears in the input. -/
def firstGameP4M (s : List Char) : Option (List Char × List Char) :=
  (pokemonLitM s).bind fun s1 =>
  (plusWs s1).bind fun s2 =>
  firstSome gamePairs fun pr =>
    (dropPrefCI pr.1.data s2).bind fun s3 =>
    (plusWs s3).bind fun s4 =>
    (dropPrefCI ("and").data s4).bind fun s5 =>
    (plusWs s5).bind fun s6 =>
    (dropPrefCI pr.2.data s6).map fun s7 => (sliceTo s2 s7, s7)

/-- The shared clean-then-length-check step of the first-game and
created-by loops: a cleaned capture is accepted when nonempty and shorter
than the bound, otherwise the next pattern is tried. -/
def cleanedShortCap (bound : Nat) (cap : List Char) : Option (List Char) :=
  let v := cleanWikiMarkup cap
  if v ≠ [] ∧ v.length < bound then some v else none

/-- WikiInfoExtractor.extract_first_game: the four infobox fields in
order, then the four text patterns in order, each match cleaned and
accepted only below length 100. -/
def extractFirstGame (text : List Char) : Option (List Char) :=
  match firstSome [("first_game"), ("firstgame"), ("first game"), ("debut")]
      (fun f => extractInfoboxField f text) with
  | some v => some v
  | none =>
      firstSome [firstGameP1M, firstGameP2M, firstGameP3M, firstGameP4M]
        (fun m => (scanFirst m text).bind (fun r => cleanedShortCap 100 r.1))

/-- Matcher for created-by pattern one: created, designed or developed,
whitespace, by, whitespace, a double open bracket, then a capture of one
or more characters that are neither close bracket nor pipe. -/
def createdByQ1M (s : List Char) : Option (List Char × List Char) :=
  firstSome [("created"), ("designed"), ("developed")]
    (fun w => dropPrefCI w.data s) |>.bind fun s1 =>
  (plusWs s1).bind fun s2 =>
  (dropPrefCI ("by").data s2).bind fun s3 =>
  (plusWs s3).bind fun s4 =>
  (dropPrefLit ("[[").data s4).bind fun s5 =>
  plusRun (fun c => c ≠ ']' && c ≠ '|') s5

/-- The greedy repetition of whitespace-then-letter-word (each word at
least two letters) in created-by pattern two; returns the rest after the
last successful repetition. -/
def nameRepsAux : Nat → List Char → List Char
  | 0, s => s
  | fuel + 1, s =>
      match (plusWs s).bind (plusRun isAsciiAlpha) with
      | some r => if r.1.length ≥ 2 then nameRepsAux fuel r.2 else s
      | none => s

/-- Matcher for created-by pattern two: the verb, whitespace, by,
whitespace, then a capture of a letter word of length at least two
followed by at least one more such word (the character classes are
case-insensitive under the ignore-case flag). -/
def createdByQ2M (s : List Char) : Option (List Char × List Char) :=
  firstSome [("created"), ("designed"), ("developed")]
    (fun w => dropPrefCI w.data s) |>.bind fun s1 =>
  (plusWs s1).bind fun s2 =>
  (dropPrefCI ("by").data s2).bind fun s3 =>
  (plusWs s3).bind fun s4 =>
  (plusRun isAsciiAlpha s4).bind fun w1 =>
  if w1.1.length ≥ 2 then
    (plusWs w1.2).bind fun s5 =>
    (plusRun isAsciiAlpha s5).bind fun w2 =>
    if w2.1.length ≥ 2 then
      let rest := nameRepsAux w2.2.length w2.2
      some (sliceTo s4 rest, rest)
    else none
  else none

/-- Matcher for created-by pattern three: creator with an optional s,
whitespace, is, are, was or were, whitespace, a double open bracket, then
a capture of characters that are neither close bracket nor pipe. -/
def createdByQ3M (s : List Char) : Option (List Char × List Char) :=
  (dropPrefCI ("creator").data s).bind fun s1 =>
  let s2 := (dropPrefCI ("s").data s1).getD s1
  (plusWs s2).bind fun s3 =>
  firstSome [("is"), ("are"), ("was"), ("were")]
    (fun w => (dropPrefCI w.data s3).bind plusWs) |>.bind fun s4 =>
  (dropPrefLit ("[[").data s4).bind fun s5 =>
  plusRun (fun c => c ≠ ']' && c ≠ '|') s5

/-- Matcher for created-by pattern four: designed, whitespace, by,
whitespace, then a capture of one or more characters that are not comma,
period or newline. -/
def createdByQ4M (s : List Char) : Option (List Char × List Char) :=
  (dropPrefCI ("designed").data s).bind fun s1 =>
  (plusWs s1).bind fun s2 =>
  (dropPrefCI ("by").data s2).bind fun s3 =>
  (plusWs s3).bind fun s4 =>
  plusRun (fun c => c ≠ ',' && c ≠ '.' && c ≠ '\n') s4

/-- WikiInfoExtractor.extract_created_by: the five infobox fields, then
the four text patterns, each cleaned and accepted only below length 100. -/
def extractCreatedBy (text : List Char) : Option (List Char) :=
  match firstSome [("creator"), ("created_by"), ("designer"), ("designed_by"),
      ("artist")] (fun f => extractInfoboxField f text) with
  | some v => some v
  | none =>
      firstSome [createdByQ1M, createdByQ2M, createdByQ3M, createdByQ4M]
        (fun m => (scanFirst m text).bind (fun r => cleanedShortCap 100 r.1))

end WikiExtract

namespace WikiExtract

open Py

/-- The colour words shared by design patterns two and four. -/
def colorWords : List String :=
  ["yellow", "red", "blue", "green", "orange", "purple", "pink", "brown",
   "black", "white", "gray", "grey"]

/-- The creature words of design pattern two. -/
def animalWords : List String :=
  ["rodent", "mouse", "cat", "dog", "bird", "dragon", "lizard", "turtle",
   "snake", "fish", "frog"]

/-- An optional bare word (no trailing whitespace requirement). -/
def optWordBare (w : Option String) (s : List Char) : Option (List Char) :=
  match w with
  | some v => dropPrefCI v.data s
  | none => some s

/-- Matcher for design pattern one: Standing, whitespace, a run of digits
and periods, whitespace, a metre unit (alternatives in pattern order, each
with the full continuation), optional whitespace, a parenthesised group,
then the two period-terminated spans. -/
def designD1M (s : List Char) : Option (List Char × List Char) :=
  (dropPrefCI ("Standing").data s).bind fun s1 =>
  (plusWs s1).bind fun s2 =>
  (plusRun (fun c => isDigitChar c || c = '.') s2).bind fun num =>
  (plusWs num.2).bind fun s3 =>
  firstSome [("metres"), ("metre"), ("meters"), ("meter"), ("m")] fun u =>
    (dropPrefCI u.data s3).bind fun s4 =>
    (dropPrefLit ("(").data (skipWs s4)).bind fun s5 =>
    (plusRun (fun c => c ≠ ')') s5).bind fun par =>
    (dropPrefLit (")").data par.2).bind fun s6 =>
    let r1 := starRun (fun c => c ≠ '.') s6
    (dropPrefLit (".").data r1.2).bind fun s7 =>
    let r2 := starRun (fun c => c ≠ '.') s7
    (dropPrefLit (".").data r2.2).map fun s8 => (sliceTo s s8, s8)

/-- Matcher for design pattern two: the optional It, is, a, body-form and
colour groups (each greedy, with the full continuation tried per choice),
then a creature word, a period-free span that must contain with, has or
having, and the closing period. -/
def designD2M (s : List Char) : Option (List Char × List Char) :=
  firstSome [some ("It"), none] fun oIt =>
  (optWordWs oIt s).bind fun s1 =>
  firstSome [some ("is"), none] fun oIs =>
  (optWordWs oIs s1).bind fun s2 =>
  firstSome [some ("a"), none] fun oA =>
  (optWordWs oA s2).bind fun s3 =>
  firstSome [some ("bipedal"), some ("quadrupedal"), none] fun oForm =>
  (optWordBare oForm s3).bind fun s4 =>
  firstSome (colorWords.map some ++ [none]) fun oColor =>
  (optWordBare oColor (skipWs s4)).bind fun s5 =>
  firstSome animalWords fun animal =>
  (dropPrefCI animal.data (skipWs s5)).bind fun s6 =>
  let r := starRun (fun c => c ≠ '.') s6
  if [("with"), ("has"), ("having")].any (fun w => containsCI w.data r.1) then
    (dropPrefLit (".").data r.2).map fun s7 => (sliceTo s s7, s7)
  else none

/-- The ordered-occurrence condition of design pattern three: somewhere in
the period-free span a tall or height occurrence is followed by a with,
has or having occurrence. -/
def tallThenConn : List Char → Bool
  | [] => false
  | c :: cs =>
      match firstSome [("tall"), ("height")]
          (fun w => dropPrefCI w.data (c :: cs)) with
      | some after =>
          if [("with"), ("has"), ("having")].any
              (fun w => containsCI w.data after) then true
          else tallThenConn cs
      | none => tallThenConn cs

/-- Matcher for design pattern three: digits with an optional decimal
part, optional whitespace, a length unit (alternatives in pattern order),
then a period-free span containing tall or height followed by with, has
or having, and the closing period. -/
def designD3M (s : List Char) : Option (List Char × List Char) :=
  (plusRun isDigitChar s).bind fun num =>
  let s1 :=
    match (dropPrefLit (".").data num.2).bind (plusRun isDigitChar) with
    | some fr => fr.2
    | none => num.2
  firstSome [("m"), ("cm"), ("ft"), ("in"), ("metres"), ("metre"),
             ("meters"), ("meter"), ("feet"), ("inches"), ("inche")] fun u =>
    (dropPrefCI u.data (skipWs s1)).bind fun s2 =>
    let r := starRun (fun c => c ≠ '.') s2
    if tallThenConn r.1 then
      (dropPrefLit (".").data r.2).map fun s3 => (sliceTo s s3, s3)
    else none

/-- Matcher for design pattern four: an optional It, has, whitespace, a
colour word, whitespace, a body-covering word, a period-free span and the
closing period. -/
def designD4M (s : List Char) : Option (List Char × List Char) :=
  firstSome [some ("It"), none] fun oIt =>
  (optWordWs oIt s).bind fun s1 =>
  (dropPrefCI ("has").data s1).bind fun s2 =>
  (plusWs s2).bind fun s3 =>
  firstSome colorWords fun color =>
    (dropPrefCI color.data s3).bind fun s4 =>
    (plusWs s4).bind fun s5 =>
    firstSome [("fur"), ("skin"), ("scales"), ("feathers"), ("body")] fun part =>
      (dropPrefCI part.data s5).bind fun s6 =>
      let r := starRun (fun c => c ≠ '.') s6
      (dropPrefLit (".").data r.2).map fun s7 => (sliceTo s s7, s7)

/-- Matcher for design pattern five: an optional Its, design, whitespace,
an optional is, then based on, inspired by or resembles, a period-free
span and the closing period. -/
def designD5M (s : List Char) : Option (List Char × List Char) :=
  firstSome [some ("Its"), none] fun oIts =>
  (optWordWs oIts s).bind fun s1 =>
  (dropPrefCI ("design").data s1).bind fun s2 =>
  (plusWs s2).bind fun s3 =>
  firstSome [some ("is"), none] fun oIs =>
  (optWordWs oIs s3).bind fun s4 =>
  firstSome
    [fun t => (dropPrefCI ("based").data t).bind fun t1 =>
        (plusWs t1).bind fun t2 => dropPrefCI ("on").data t2,
     fun t => (dropPrefCI ("inspired").data t).bind fun t1 =>
        (plusWs t1).bind fun t2 => dropPrefCI ("by").data t2,
     fun t => dropPrefCI ("resembles").data t] fun conn =>
  (conn s4).bind fun s5 =>
  let r := starRun (fun c => c ≠ '.') s5
  (dropPrefLit (".").data r.2).map fun s6 => (sliceTo s s6, s6)

/-- The appearance keywords of the sentence fallback. -/
def appearanceKeywords : List String :=
  ["tall", "bipedal", "quadrupedal", "yellow fur", "red cheek",
   "pointed ears", "lightning bolt", "tail shaped", "long ears",
   "short arms", "rodent", "mouse-like"]

/-- re.split on whitespace runs preceded by a sentence-ending period,
exclamation or question mark (the lookbehind split of the fallback).
fuel as elsewhere: every step consumes one character. -/
def sentSplitAux : Nat → List Char → List Char → List (List Char)
  | 0, acc, s => [acc ++ s]
  | _ + 1, acc, [] => [acc]
  | fuel + 1, acc, c :: cs =>
      if c = '.' || c = '!' || c = '?' then
        match cs with
        | d :: _ =>
            if isSpaceChar d then
              (acc ++ [c]) :: sentSplitAux fuel [] (cs.dropWhile isSpaceChar)
            else sentSplitAux fuel (acc ++ [c]) cs
        | [] => [acc ++ [c]]
      else sentSplitAux fuel (acc ++ [c]) cs

def splitSentences (s : List Char) : List (List Char) :=
  sentSplitAux (s.length + 1) [] s

/-- The shared clean-then-window check of extract_design_description: a
cleaned value is accepted when its length lies strictly between 20 and
500. -/
def cleanedWindowCap (cap : List Char) : Option (List Char) :=
  let v := cleanWikiMarkup cap
  if 20 < v.length ∧ v.length < 500 then some v else none

/-- WikiInfoExtractor.extract_design_description: the five patterns in
order, each first match cleaned and window-checked; then the sentence
fallback keeps the first sentence containing an appearance keyword whose
cleaned form passes the same window check. -/
def extractDesignDescription (text : List Char) : Option (List Char) :=
  match firstSome [designD1M, designD2M, designD3M, designD4M, designD5M]
      (fun m => (scanFirst m text).bind (fun r => cleanedWindowCap r.1)) with
  | some v => some v
  | none =>
      firstSome (splitSentences text) fun sent =>
        if appearanceKeywords.any (fun k => containsLit k.data (lowerL sent)) then
          cleanedWindowCap sent
        else none

/-- Matcher for the infobox-template removal pattern of
extract_description: double open brace, an upper or lower case letter I,
nfobox, a nonempty run free of close braces, double close brace. -/
def infoboxTplM (s : List Char) : Option (List Char) :=
  (dropPrefLit [('\x7b'), ('\x7b')] s).bind fun s1 =>
  match s1 with
  | c :: s2 =>
      if c = 'I' ∨ c = 'i' then
        (dropPrefLit ("nfobox").data s2).bind fun s3 =>
        (plusRun (fun ch => ch ≠ '\x7d') s3).bind fun r =>
        dropPrefLit [('\x7d'), ('\x7d')] r.2
      else none
  | [] => none

/-- Matcher for the short-description template removal pattern. -/
def shortDescTplM (s : List Char) : Option (List Char) :=
  (dropPrefLit [('\x7b'), ('\x7b')] s).bind fun s1 =>
  match s1 with
  | c :: s2 =>
      if c = 'S' ∨ c = 's' then
        (dropPrefLit ("hort description").data s2).bind fun s3 =>
        (plusRun (fun ch => ch ≠ '\x7d') s3).bind fun r =>
        dropPrefLit [('\x7d'), ('\x7d')] r.2
      else none
  | [] => none

/-- WikiInfoExtractor.extract_description: remove infobox and short
description templates, split on blank lines, and return the first cleaned
paragraph longer than 50 characters that starts with neither a double open
brace nor a pipe, truncated to 500 characters with an ellipsis. -/
def extractDescription (text : List Char) : Option (List Char) :=
  let t := subAllM shortDescTplM (subAllM infoboxTplM text)
  firstSome (splitOnSeq ("\n\n").data t) fun para =>
    let p := cleanWikiMarkup para
    if p.length > 50 ∧ ¬ ([('\x7b'), ('\x7b')].isPrefixOf p) ∧
        ¬ (("|").data.isPrefixOf p) then
      some (p.take 500 ++ (if p.length > 500 then ("...").data else []))
    else none

/-- The WikiInfo record produced once per wiki page by
WikiInfoExtractor.extract_all_info; empty type and ability lists are
stored as null, as in the Python dict. -/
structure WikiPageInfo where
  title : String
  has_pokemon_info : Bool
  types : Option (List String)
  species : Option String
  generation : Option String
  abilities : Option (List String)
  evolves_from : Option String
  evolves_to : Option String
  height : Option String
  weight : Option String
  japanese_name : Option String
  pokedex_number : Option String
  first_game : Option String
  created_by : Option String
  design_description : Option String
  description : Option String
deriving DecidableEq

/-- The record returned for an empty page text: only the title and the
false flag are populated (the Python dict has no other keys; absent keys
read as null downstream). -/
def emptyPageInfo (title : String) : WikiPageInfo :=
  ⟨title, false, none, none, none, none, none, none, none, none, none,
   none, none, none, none, none⟩

/-- WikiInfoExtractor.extract_all_info: runs every extractor on the page
text and sets has_pokemon_info exactly when one of types, species,
generation, abilities, pokedex_number, first_game or design_description
is populated. -/
def extractAllInfo (title text : String) : WikiPageInfo :=
  if text = ("") then emptyPageInfo title
  else
    let t := text.data
    let types := extractPokemonType t
    let species := extractSpecies t
    let generation := extractGeneration t
    let abilities := extractAbilities t
    let evolution := extractEvolution t
    let physical := extractPhysicalStats t
    let japaneseName := extractJapaneseName t
    let pokedexNumber := extractPokedexNumber t
    let firstGame := extractFirstGame t
    let createdBy := extractCreatedBy t
    let designDescription := extractDesignDescription t
    let description := extractDescription t
    let hasPokemonInfo :=
      !types.isEmpty || species.isSome || generation.isSome ||
      !abilities.isEmpty || pokedexNumber.isSome || firstGame.isSome ||
      designDescription.isSome
    ⟨title, hasPokemonInfo,
     if types.isEmpty then none else some (types.map String.mk),
     species.map String.mk,
     generation.map String.mk,
     if abilities.isEmpty then none else some (abilities.map String.mk),
     evolution.1.map String.mk,
     evolution.2.map String.mk,
     physical.1.map String.mk,
     physical.2.map String.mk,
     japaneseName.map String.mk,
     pokedexNumber.map String.mk,
     firstGame.map String.mk,
     createdBy.map String.mk,
     designDescription.map String.mk,
     description.map String.mk⟩

end WikiExtract

namespace Join

open Py

/-- The attribute record attached to a match result when a qualifying
wiki page is found: the thirteen fields copied from the WikiInfo entry in
join_pokemon_wiki (design_description is not among them). -/
structure AttachedWikiInfo where
  types : Option (List String)
  species : Option String
  generation : Option String
  abilities : Option (List String)
  evolves_from : Option String
  evolves_to : Option String
  height : Option String
  weight : Option String
  japanese_name : Option String
  pokedex_number : Option String
  first_game : Option String
  created_by : Option String
  description : Option String
deriving DecidableEq

/-- The field copy of join_pokemon_wiki lines building pokemon_wiki_info. -/
def attachedOf (p : WikiExtract.WikiPageInfo) : AttachedWikiInfo :=
  ⟨p.types, p.species, p.generation, p.abilities, p.evolves_from,
   p.evolves_to, p.height, p.weight, p.japanese_name, p.pokedex_number,
   p.first_game, p.created_by, p.description⟩

/-- The walk over the sorted candidate list in join_pokemon_wiki: the
first title present in the WikiInfo lookup whose record has the
has_pokemon_info flag becomes the best page, together with its attribute
record; a title absent from the lookup or with a false flag is skipped. -/
def bestLoop (wi : String → Option WikiExtract.WikiPageInfo) :
    List String → Option String × Option AttachedWikiInfo
  | [] => (none, none)
  | t :: rest =>
      match wi t with
      | some p =>
          if p.has_pokemon_info then (some t, some (attachedOf p))
          else bestLoop wi rest
      | none => bestLoop wi rest

/-- Whether a candidate title qualifies for best-match selection: it must
be present in the WikiInfo lookup with a true has_pokemon_info flag. -/
def qualifies (wi : String → Option WikiExtract.WikiPageInfo) (t : String) : Bool :=
  match wi t with
  | some p => p.has_pokemon_info
  | none => false

/-- The per-entity-group result record appended by join_pokemon_wiki; the
card payload type is abstract since the join never inspects cards beyond
counting and passing them through. -/
structure MatchResult (κ : Type) where
  pokemon : String
  card_count : Nat
  cards : List κ
  wiki_pages : List String
  best_wiki_page : Option String
  wiki_info : Option AttachedWikiInfo

/-- The body of the per-group loop of join_pokemon_wiki, with the
candidate set made explicit as a list in its iteration order: rank the
candidates, walk them for the best page, and build the result record. -/
def joinOnePokemon (wi : String → Option WikiExtract.WikiPageInfo)
    (pokemonName : String) (cards : List κ) (matchedWikis : List String) :
    MatchResult κ :=
  let sorted := rankCandidates pokemonName matchedWikis
  let best := bestLoop wi sorted
  ⟨pokemonName, cards.length, cards, sorted, best.1, best.2⟩

/-- Assignment into a Python dict modelled as an assignment trace: lookup
returns the value of the last assignment to the key. -/
def lookupLast (d : List (String × String)) (k : String) : Option String :=
  (d.reverse.find? (fun pr => pr.1 = k)).map (·.2)

/-- Python str.rsplit on the open paren with one split, first part: the
text before the last open paren, the whole string when there is none. -/
def beforeLastParen (s : String) : String :=
  if ('(') ∈ s.data then
    String.mk (((s.data.reverse.dropWhile (fun c => c ≠ '(')).drop 1).reverse)
  else s

/-- The wiki_exact and wiki_normalized dictionaries of join_pokemon_wiki,
as assignment traces in title order: each title is indexed under its
lowercase and normalized forms, and a title ending in the parenthesised
Pokemon disambiguation suffix is additionally indexed under its stripped
base string. -/
def buildWikiMaps (titles : List String) :
    List (String × String) × List (String × String) :=
  titles.foldl
    (fun maps title =>
      let e := maps.1 ++ [(pyLower title, title)]
      let n := maps.2 ++ [(normalize title, title)]
      if pyEndsWith title ("(Pokémon)") || pyEndsWith title ("(Pokemon)") then
        let base := pyStrip (beforeLastParen title)
        (e ++ [(pyLower base, title)], n ++ [(normalize base, title)])
      else (e, n))
    ([], [])

/-- The word pattern of the indices: maximal runs of lowercase letters
(the text is lowercased before matching). -/
def wordRunM (s : List Char) : Option (List Char × List Char) :=
  plusRun (fun c => 'a' ≤ c && c ≤ 'z') s

def findWordsAZ (s : List Char) : List String :=
  (findAllM wordRunM s).map String.mk

/-- Adding a title to a word entry of the title index (dict of sets:
the entry is created on demand, the title added once). -/
def idxAdd : List (String × List String) → String → String →
    List (String × List String)
  | [], w, t => [(w, [t])]
  | (w0, ts) :: rest, w, t =>
      if w0 = w then (w0, if t ∈ ts then ts else ts ++ [t]) :: rest
      else (w0, ts) :: idxAdd rest w t

/-- join_cards_wiki.build_title_index: every title is indexed under each
distinct lowercase word of its title. -/
def buildTitleIndex (titles : List String) : List (String × List String) :=
  titles.foldl
    (fun idx title =>
      (dedupFirst (findWordsAZ (Py.lowerL title.data))).foldl
        (fun idx2 w => idxAdd idx2 w title) idx)
    []

/-- Python set.add modelled on an insertion-ordered list. -/
def setAdd (l : List String) (x : String) : List String :=
  if x ∈ l then l else l ++ [x]

/-- Python set.update from an iterable. -/
def setUpdate (l : List String) (xs : List String) : List String :=
  xs.foldl setAdd l

/-- Appending a title to one name entry of the text index. -/
def assocAdd : List (String × List String) → String → String →
    List (String × List String)
  | [], _, _ => []
  | (n0, ts) :: rest, n, t =>
      if n0 = n then (n0, setAdd ts t) :: rest
      else (n0, ts) :: assocAdd rest n t

/-- The base_to_pokemon grouping of build_text_index: names grouped under
their lowercased base form, groups created in first-appearance order. -/
def baseGroups (names : List String) : List (String × List String) :=
  names.foldl
    (fun m name =>
      let b := pyLower (extract_base_pokemon name)
      match m.find? (fun pr => pr.1 = b) with
      | some _ =>
          m.map (fun pr => if pr.1 = b then (pr.1, pr.2 ++ [name]) else pr)
      | none => m ++ [(b, [name])])
    []

/-- join_cards_wiki.build_text_index: every wiki page whose text contains
the lowercased base word of a name adds its title to the candidate set of
every name in that base group; entries are initialised empty for all
names, pages processed in input order. -/
def buildTextIndex (wikiText : List (String × String)) (names : List String) :
    List (String × List String) :=
  let b2p := baseGroups names
  wikiText.foldl
    (fun p2w pg =>
      (dedupFirst (findWordsAZ (Py.lowerL pg.2.data))).foldl
        (fun p2w2 w =>
          match b2p.find? (fun pr => pr.1 = w) with
          | some grp => grp.2.foldl (fun p2w3 nm => assocAdd p2w3 nm pg.1) p2w2
          | none => p2w2)
        p2w)
    (names.map (fun n => (n, ([] : List String))))

/-- The candidate-set accumulation of join_pokemon_wiki for one entity
group, in source order: exact lookups of the base and full names, the
normalized lookups, the word-index candidates filtered against list pages
and long titles, and the text-index candidates. -/
def genCandidates (we wn : List (String × String))
    (tidx : List (String × List String))
    (textIndex : Option (List (String × List String)))
    (pokemonName : String) : List String :=
  let pokemonLower := pyLower pokemonName
  let pokemonNorm := normalize pokemonName
  let basePokemon := extract_base_pokemon pokemonName
  let baseLower := pyLower basePokemon
  let baseNorm := normalize basePokemon
  let m : List String := []
  let m :=
    if baseLower ≠ pokemonLower then
      match lookupLast we baseLower with
      | some t => setAdd m t
      | none => m
    else m
  let m :=
    match lookupLast we pokemonLower with
    | some t => setAdd m t
    | none => m
  let m :=
    if baseNorm ≠ pokemonNorm then
      match lookupLast wn baseNorm with
      | some t => setAdd m t
      | none => m
    else m
  let m :=
    match lookupLast wn pokemonNorm with
    | some t => setAdd m t
    | none => m
  let m :=
    [baseNorm, pokemonNorm].foldl
      (fun m2 nrm =>
        match tidx.find? (fun pr => pr.1 = nrm) with
        | some entry =>
            entry.2.foldl
              (fun m3 t =>
                if ¬ pyStartsWith t ("List of") ∧ t.length < 50 then setAdd m3 t
                else m3)
              m2
        | none => m2)
      m
  match textIndex with
  | some ti =>
      match ti.find? (fun pr => pr.1 = pokemonName) with
      | some entry => setUpdate m entry.2
      | none => m
  | none => m

/-- join_cards_wiki.join_pokemon_wiki: build the lookup maps and the title
word index from the titles, then produce one match result per entity
group. -/
def joinPokemonWiki (pokemonCards : List (String × List κ))
    (wikiTitles : List String)
    (wikiInfo : String → Option WikiExtract.WikiPageInfo)
    (textIndex : Option (List (String × List String))) : List (MatchResult κ) :=
  let maps := buildWikiMaps wikiTitles
  let tidx := buildTitleIndex wikiTitles
  pokemonCards.map
    (fun grp =>
      joinOnePokemon wikiInfo grp.1 grp.2
        (genCandidates maps.1 maps.2 tidx textIndex grp.1))

/-- join_cards_wiki.JoinStats; match_rate is the exact rational value of
the Python float expression. -/
structure JoinStats where
  total_pokemon : Nat
  total_cards : Nat
  total_wiki_pages : Nat
  pokemon_with_wiki : Nat
  pokemon_without_wiki : Nat
  match_rate : ℚ
deriving DecidableEq

/-- One output artifact written by save_results. -/
inductive SavedFile (κ : Type)
  | pokemonWithWiki : List (MatchResult κ) → SavedFile κ
  | pokemonMatchedWiki : List (MatchResult κ) → SavedFile κ
  | joinStats : JoinStats → SavedFile κ

/-- join_cards_wiki.save_results: results sorted by entity name, then the
full file, the matched-only file and the statistics file are written, in
that order. -/
def saveResults (results : List (MatchResult κ)) (stats : JoinStats) :
    List (SavedFile κ) :=
  let sorted :=
    List.insertionSort (fun a b => strLeB a.pokemon b.pokemon = true) results
  [SavedFile.pokemonWithWiki sorted,
   SavedFile.pokemonMatchedWiki (sorted.filter (fun r => ¬ r.wiki_pages.isEmpty)),
   SavedFile.joinStats stats]

/-- The outcome of a join run: the returned statistics or the raised
error, together with the trace of written output files. -/
structure RunOutput (κ : Type) where
  result : Except String JoinStats
  written : List (SavedFile κ)

/-- The text index passed to join_pokemon_wiki by run_join: built only
when some wiki page text was loaded. -/
def runTextIndex (pokemonCards : List (String × List κ))
    (wikiText : List (String × String)) : Option (List (String × List String)) :=
  if wikiText.isEmpty then none
  else some (buildTextIndex wikiText (pokemonCards.map (·.1)))

/-- join_cards_wiki.run_join after loading: empty card groups or empty
title list raise before anything is computed or written; otherwise the
join runs, the statistics are computed and the three output files are
written by save_results. -/
def runJoin (pokemonCards : List (String × List κ)) (wikiTitles : List String)
    (wikiInfo : String → Option WikiExtract.WikiPageInfo)
    (wikiText : List (String × String)) : RunOutput κ :=
  if pokemonCards.isEmpty then ⟨Except.error ("No cards loaded!"), []⟩
  else if wikiTitles.isEmpty then ⟨Except.error ("No wiki titles loaded!"), []⟩
  else
    let results :=
      joinPokemonWiki pokemonCards wikiTitles wikiInfo
        (runTextIndex pokemonCards wikiText)
    let totalCards := (results.map (·.card_count)).sum
    let matched := (results.filter (fun r => ¬ r.wiki_pages.isEmpty)).length
    let stats : JoinStats :=
      ⟨results.length, totalCards, wikiTitles.length, matched,
       results.length - matched,
       if results.isEmpty then 0
       else (matched : ℚ) / (results.length : ℚ) * 100⟩
    ⟨Except.ok stats, saveResults results stats⟩

end Join

namespace Join

/-- Following the words of the spec, for comparison with the code: the
candidate list is sorted by the pair (tier, title), title as secondary
key (true when every adjacent pair is ordered by tier, ties broken by
string order). -/
def specTierTitleSortedB (pokemonName : String) : List String → Bool
  | [] => true
  | [_] => true
  | a :: b :: t =>
      (sortKeyFor pokemonName a < sortKeyFor pokemonName b ||
        (sortKeyFor pokemonName a == sortKeyFor pokemonName b && strLeB a b)) &&
      specTierTitleSortedB pokemonName (b :: t)

/-- Whether extract_base_pokemon strips neither a game-mechanic prefix
nor a game-mechanic suffix from the given name: no PREFIXES entry matches
the front of the lowered stripped name and no SUFFIXES entry matches its
end (when no prefix strips, the suffix scan runs on the same string). -/
def stripsNothing (name : String) : Bool :=
  let nl := pyStrip (pyLower name)
  (PREFIXES.find? (fun p => pyStartsWith nl (p ++ (" ")))).isNone &&
  (SUFFIXES.find? (fun sfx => pyEndsWith nl ((" ") ++ sfx))).isNone

end Join

/-- A stable sort by a natural-number key is sorted by that key. -/
theorem sortedByKey_insertionSort {α : Type} (key : α → Nat) (l : List α) :
    List.Sorted (fun a b => key a ≤ key b)
      (List.insertionSort (fun a b => key a ≤ key b) l) := by
  haveI : IsTotal α (fun a b => key a ≤ key b) :=
    ⟨fun a b => Nat.le_total (key a) (key b)⟩
  haveI : IsTrans α (fun a b => key a ≤ key b) :=
    ⟨fun _ _ _ => Nat.le_trans⟩
  exact List.sorted_insertionSort _ l

/-- Inserting an element whose key equals k puts it in front of every
equal-key element already present: the equal-key sublist gains it at the
front. -/
theorem filter_orderedInsert_key_eq {α : Type} (key : α → Nat) (k : Nat)
    (a : α) (ha : key a = k) :
    ∀ l : List α,
      (List.orderedInsert (fun x y => key x ≤ key y) a l).filter
          (fun x => key x == k) =
        a :: l.filter (fun x => key x == k)
  | [] => by simp [List.orderedInsert, ha]
  | y :: l => by
      by_cases h : key a ≤ key y
      · simp only [List.orderedInsert, if_pos h]
        simp [List.filter_cons, ha]
      · have hy : (key y == k) = false := by
          simp only [beq_eq_false_iff_ne]
          omega
        simp only [List.orderedInsert, if_neg h, List.filter_cons, hy,
          Bool.false_eq_true, if_false]
        exact filter_orderedInsert_key_eq key k a ha l

/-- Inserting an element whose key differs from k leaves the equal-key
sublist unchanged. -/
theorem filter_orderedInsert_key_ne {α : Type} (key : α → Nat) (k : Nat)
    (a : α) (ha : key a ≠ k) :
    ∀ l : List α,
      (List.orderedInsert (fun x y => key x ≤ key y) a l).filter
          (fun x => key x == k) =
        l.filter (fun x => key x == k)
  | [] => by simp [List.orderedInsert, ha]
  | y :: l => by
      by_cases h : key a ≤ key y
      · have hq : (key a == k) = false := by
          simp only [beq_eq_false_iff_ne]
          exact ha
        simp only [List.orderedInsert, if_pos h, List.filter_cons, hq,
          Bool.false_eq_true, if_false]
      · simp only [List.orderedInsert, if_neg h, List.filter_cons,
          filter_orderedInsert_key_ne key k a ha l]

/-- Stability of the key-based insertion sort: the sublist of elements
with any fixed key value is preserved. -/
theorem filter_insertionSort_key {α : Type} (key : α → Nat) (k : Nat) :
    ∀ l : List α,
      (List.insertionSort (fun a b => key a ≤ key b) l).filter
          (fun x => key x == k) =
        l.filter (fun x => key x == k)
  | [] => rfl
  | a :: l => by
      show (List.orderedInsert _ a (List.insertionSort _ l)).filter _ = _
      by_cases ha : key a = k
      · rw [filter_orderedInsert_key_eq key k a ha,
          filter_insertionSort_key key k l]
        simp [ha]
      · rw [filter_orderedInsert_key_ne key k a ha,
          filter_insertionSort_key key k l]
        simp [ha]

/-- In a duplicate-free list, an element with a strictly smaller key ends
up strictly earlier after the key-based insertion sort. -/
theorem indexOf_lt_of_key_lt {α : Type} [DecidableEq α] (key : α → Nat)
    {l : List α} (hnd : l.Nodup) {A B : α} (hA : A ∈ l) (hB : B ∈ l)
    (hk : key A < key B) :
    (List.insertionSort (fun a b => key a ≤ key b) l).indexOf A <
      (List.insertionSort (fun a b => key a ≤ key b) l).indexOf B := by
  set r := List.insertionSort (fun a b => key a ≤ key b) l with hr
  have hperm : r.Perm l := List.perm_insertionSort _ l
  have hnd' : r.Nodup := hperm.symm.nodup hnd
  have hA' : A ∈ r := hperm.mem_iff.mpr hA
  have hB' : B ∈ r := hperm.mem_iff.mpr hB
  have hi : r.indexOf A < r.length := List.indexOf_lt_length.mpr hA'
  have hj : r.indexOf B < r.length := List.indexOf_lt_length.mpr hB'
  have hsort : List.Sorted (fun a b => key a ≤ key b) r :=
    sortedByKey_insertionSort key l
  by_contra hcon
  push_neg at hcon
  rcases Nat.lt_or_ge (r.indexOf B) (r.indexOf A) with hlt | hge
  · have hrel := hsort.rel_get_of_lt
      (a := ⟨r.indexOf B, hj⟩) (b := ⟨r.indexOf A, hi⟩) hlt
    rw [List.indexOf_get hj, List.indexOf_get hi] at hrel
    omega
  · have heq : r.indexOf A = r.indexOf B := Nat.le_antisymm hge hcon
    have hAB : A = B := by
      have h1 := List.indexOf_get hi
      have h2 := List.indexOf_get hj
      rw [← h1, ← h2]
      exact congrArg r.get (Fin.ext heq)
    subst hAB
    omega

/-- C1 counterexample: with entity "Pikachu", the equal-tier candidates
"Pikachu B" and "Pikachu A" keep their iteration order, so the ranked
list is not sorted with the title as a secondary key and two iteration
orders of the same candidate set give different wiki_pages orderings. -/
theorem c1_counterexample :
    ([("Pikachu B"), ("Pikachu A")] : List String).Perm
      [("Pikachu A"), ("Pikachu B")] ∧
    Join.rankCandidates ("Pikachu") [("Pikachu B"), ("Pikachu A")] =
      [("Pikachu B"), ("Pikachu A")] ∧
    Join.rankCandidates ("Pikachu") [("Pikachu B"), ("Pikachu A")] ≠
      Join.rankCandidates ("Pikachu") [("Pikachu A"), ("Pikachu B")] ∧
    Join.specTierTitleSortedB ("Pikachu")
      (Join.rankCandidates ("Pikachu") [("Pikachu B"), ("Pikachu A")]) = false :=
  ⟨List.Perm.swap _ _ _, by decide, by decide, by decide⟩

/-- C1 amended: the candidate list is sorted by tier alone; the sort is
stable, so equal-tier candidates keep the candidate-set iteration order
(the equal-tier sublists are preserved), and the output is a permutation
of the candidate set. -/
theorem c1_amended (pokemonName : String) (matchedWikis : List String) :
    List.Sorted
      (fun a b => Join.sortKeyFor pokemonName a ≤ Join.sortKeyFor pokemonName b)
      (Join.rankCandidates pokemonName matchedWikis) ∧
    (Join.rankCandidates pokemonName matchedWikis).Perm matchedWikis ∧
    ∀ k, (Join.rankCandidates pokemonName matchedWikis).filter
        (fun t => Join.sortKeyFor pokemonName t == k) =
      matchedWikis.filter (fun t => Join.sortKeyFor pokemonName t == k) :=
  ⟨sortedByKey_insertionSort _ matchedWikis,
   List.perm_insertionSort _ matchedWikis,
   fun k => filter_insertionSort_key _ k matchedWikis⟩

/-- C3: for two candidates of the same duplicate-free candidate set, a
strictly smaller tier under sort_key means a strictly earlier position in
the ranked wiki_pages list, whatever the iteration order of the set. -/
theorem c3_priority_order (pokemonName : String) (l : List String)
    (A B : String) (hnd : l.Nodup) (hA : A ∈ l) (hB : B ∈ l)
    (hk : Join.sortKeyFor pokemonName A < Join.sortKeyFor pokemonName B) :
    (Join.rankCandidates pokemonName l).indexOf A <
      (Join.rankCandidates pokemonName l).indexOf B :=
  indexOf_lt_of_key_lt (Join.sortKeyFor pokemonName) hnd hA hB hk

/-- C3 witness: the exact-title candidate "Pikachu" (tier 2) precedes the
merely prefixed candidate "Pikachu Z" (tier 5). -/
theorem c3_priority_order_witness :
    (Join.rankCandidates ("Pikachu") [("Pikachu Z"), ("Pikachu")]).indexOf
        ("Pikachu") <
      (Join.rankCandidates ("Pikachu") [("Pikachu Z"), ("Pikachu")]).indexOf
        ("Pikachu Z") :=
  c3_priority_order ("Pikachu") [("Pikachu Z"), ("Pikachu")]
    ("Pikachu") ("Pikachu Z") (by decide) (by decide) (by decide) (by decide)

/-- The selection walk returns exactly the first qualifying candidate,
and carries an attribute record exactly when it found one. -/
theorem bestLoop_spec (wi : String → Option WikiExtract.WikiPageInfo) :
    ∀ l : List String,
      (Join.bestLoop wi l).1 = l.find? (Join.qualifies wi) ∧
      ((Join.bestLoop wi l).2.isSome ↔ (Join.bestLoop wi l).1.isSome)
  | [] => by simp [Join.bestLoop]
  | t :: rest => by
      have ih := bestLoop_spec wi rest
      rcases h : wi t with _ | p
      · simpa [Join.bestLoop, h, List.find?_cons, Join.qualifies, ih.2] using ih
      · by_cases hp : p.has_pokemon_info
        · simp [Join.bestLoop, h, hp, List.find?_cons, Join.qualifies]
        · simpa [Join.bestLoop, h, hp, List.find?_cons, Join.qualifies, ih.2]
            using ih

/-- C2: best_wiki_page is the first candidate of the ranked list that is
present in the WikiInfo lookup with a true has_pokemon_info flag (null
when no candidate qualifies, however many candidates there are), and the
attribute record is attached exactly when such a candidate was found. -/
theorem c2_best_match_selection (κ : Type)
    (wi : String → Option WikiExtract.WikiPageInfo) (name : String)
    (cards : List κ) (mw : List String) :
    (Join.joinOnePokemon wi name cards mw).best_wiki_page =
      (Join.joinOnePokemon wi name cards mw).wiki_pages.find?
        (Join.qualifies wi) ∧
    ((Join.joinOnePokemon wi name cards mw).wiki_info.isSome ↔
      (Join.joinOnePokemon wi name cards mw).best_wiki_page.isSome) :=
  bestLoop_spec wi (Join.rankCandidates name mw)

/-- C5 counterexample: extract_base_pokemon does not strip the rarity
suffix "Reverse Holo", so the two names of the claim do not map to the
same result. -/
theorem c5_counterexample :
    Join.extract_base_pokemon ("Paldean Wooper Reverse Holo") =
      ("Wooper Reverse Holo") ∧
    Join.extract_base_pokemon ("Wooper") = ("Wooper") ∧
    Join.extract_base_pokemon ("Paldean Wooper Reverse Holo") ≠
      Join.extract_base_pokemon ("Wooper") := by
  decide

/-- C5 amended: a form prefixed name and its bare base name normalize to
the same result: "Paldean Wooper" and "Wooper" both give "Wooper". -/
theorem c5_amended :
    Join.extract_base_pokemon ("Paldean Wooper") = ("Wooper") ∧
    Join.extract_base_pokemon ("Wooper") = ("Wooper") := by
  decide

/-- C6 counterexample: "PIKACHU" strips neither a prefix nor a suffix,
yet extract_base_pokemon returns "Pikachu", not the input unchanged: the
case normalization happens inside the function. -/
theorem c6_counterexample :
    Join.stripsNothing ("PIKACHU") = true ∧
    Join.extract_base_pokemon ("PIKACHU") ≠ ("PIKACHU") ∧
    Join.extract_base_pokemon ("PIKACHU") = ("Pikachu") := by
  decide

/-- C6 amended: on every input from which extract_base_pokemon strips
neither a game-mechanic prefix nor a game-mechanic suffix, it returns the
title-cased form of the lowercased and stripped input (the input itself
only when that form is empty). -/
theorem c6_amended (name : String) (h : Join.stripsNothing name = true) :
    Join.extract_base_pokemon name =
      (if Join.pyStrip (Join.pyLower name) = ("") then name
       else Join.pyTitle (Join.pyStrip (Join.pyLower name))) := by
  simp only [Join.stripsNothing, Bool.and_eq_true, Option.isNone_iff_eq_none] at h
  by_cases hn : name = ("")
  · subst hn
    decide
  · simp only [Join.extract_base_pokemon, if_neg hn, h.1, h.2]

/-- C6 witness: the amended statement at the concrete input "PIKACHU". -/
theorem c6_amended_witness :
    Join.extract_base_pokemon ("PIKACHU") =
      (if Join.pyStrip (Join.pyLower ("PIKACHU")) = ("") then ("PIKACHU")
       else Join.pyTitle (Join.pyStrip (Join.pyLower ("PIKACHU")))) :=
  c6_amended ("PIKACHU") (by decide)

/-- C7: decompose_card_name applies prefix-rarity first (first table
match winning, suffix table not consulted), suffix-rarity only when no
prefix-rarity matched (first match winning), then the set-suffix pass and
the form prefix pass, in that fixed pipeline order; on the example,
"Paldean Wooper Reverse Holo" gives prefix "Paldean", base "Wooper" and
rarity "Reverse Holo". -/
theorem c7_decompose_order :
    Cards.parseName ("Paldean Wooper Reverse Holo") =
      (some ("Paldean"), ("Wooper"), some ("Reverse Holo")) ∧
    (∀ name p,
      Cards.PREFIX_RARITIES.find? (fun r => Cards.startMatch r name) = some p →
      Cards.findAndRemoveRarity name = (Cards.removeStart p name, some p)) ∧
    (∀ name s,
      Cards.PREFIX_RARITIES.find? (fun r => Cards.startMatch r name) = none →
      Cards.SUFFIX_RARITIES.find? (fun r => Cards.endMatch r name) = some s →
      Cards.findAndRemoveRarity name = (Cards.removeEnd s name, some s)) ∧
    (∀ name, name ≠ ("") →
      Cards.parseName name =
        (let n0 := Join.pyStrip (Cards.htmlUnescape name)
         let pr1 := Cards.findAndRemoveRarity n0
         let pr2 := Cards.extractFormPfx (Cards.removeSetSuffixes pr1.1)
         (pr2.1, pr2.2, pr1.2))) := by
  refine ⟨by decide, ?_, ?_, ?_⟩
  · intro name p h
    unfold Cards.findAndRemoveRarity
    rw [h]
  · intro name s h1 h2
    unfold Cards.findAndRemoveRarity
    rw [h1, h2]
  · intro name h
    unfold Cards.parseName
    rw [if_neg h]

/-- C7 witness: the three conditional parts applied at concrete names. -/
theorem c7_decompose_order_witness :
    Cards.findAndRemoveRarity ("Full Art Pikachu") =
      (Cards.removeStart ("Full Art") ("Full Art Pikachu"), some ("Full Art")) ∧
    Cards.findAndRemoveRarity ("Paldean Wooper Reverse Holo") =
      (Cards.removeEnd ("Reverse Holo") ("Paldean Wooper Reverse Holo"),
       some ("Reverse Holo")) ∧
    Cards.parseName ("Pikachu V") =
      (let n0 := Join.pyStrip (Cards.htmlUnescape ("Pikachu V"))
       let pr1 := Cards.findAndRemoveRarity n0
       let pr2 := Cards.extractFormPfx (Cards.removeSetSuffixes pr1.1)
       (pr2.1, pr2.2, pr1.2)) :=
  ⟨c7_decompose_order.2.1 ("Full Art Pikachu") ("Full Art") (by decide),
   c7_decompose_order.2.2.1 ("Paldean Wooper Reverse Holo") ("Reverse Holo")
     (by decide) (by decide),
   c7_decompose_order.2.2.2 ("Pikachu V") (by decide)⟩

/-- A character kept by normalize is fixed by ASCII lowercasing. -/
theorem asciiLower_fix (c : Char) (h : Py.isLowerAlnum c = true) :
    Py.asciiLower c = c := by
  unfold Py.asciiLower
  rw [if_neg]
  intro hAZ
  have hA : (65 : Nat) ≤ c.toNat := hAZ.1
  have hZ : c.toNat ≤ 90 := hAZ.2
  simp only [Py.isLowerAlnum, Py.isDigitChar, Bool.or_eq_true,
    Bool.and_eq_true, decide_eq_true_eq] at h
  rcases h with ⟨h1, h2⟩ | ⟨h1, h2⟩
  · have : (97 : Nat) ≤ c.toNat := h1
    omega
  · have : c.toNat ≤ 57 := h2
    omega

/-- Lowercasing fixes a list of kept characters. -/
theorem lowerL_fix (l : List Char) (h : ∀ c ∈ l, Py.isLowerAlnum c = true) :
    Py.lowerL l = l := by
  unfold Py.lowerL
  induction l with
  | nil => rfl
  | cons c cs ih =>
      rw [List.map_cons, asciiLower_fix c (h c (List.mem_cons_self c cs)),
        ih (fun d hd => h d (List.mem_cons_of_mem c hd))]

/-- C9: normalize is total with only lowercase alphanumeric output
characters, maps the empty string to itself, and is idempotent. -/
theorem c9_normalize_total_idempotent :
    Join.normalize ("") = ("") ∧
    (∀ x : String, ∀ c ∈ (Join.normalize x).data, Py.isLowerAlnum c = true) ∧
    (∀ x : String, Join.normalize (Join.normalize x) = Join.normalize x) := by
  have hmem : ∀ x : String, ∀ c ∈ (Join.normalize x).data,
      Py.isLowerAlnum c = true := by
    intro x c hc
    unfold Join.normalize at hc
    by_cases hx : x = ("")
    · rw [if_pos hx] at hc
      simp at hc
    · rw [if_neg hx] at hc
      exact (List.mem_filter.mp hc).2
  refine ⟨rfl, hmem, ?_⟩
  intro x
  by_cases hx : x = ("")
  · subst hx
    rfl
  · by_cases h0 : Join.normalize x = ("")
    · rw [h0]
      rfl
    · have hunf : ∀ y : String, y ≠ ("") → Join.normalize y =
          String.mk ((Py.lowerL y.data).filter Py.isLowerAlnum) := by
        intro y hy
        unfold Join.normalize
        rw [if_neg hy]
      rw [hunf (Join.normalize x) h0, lowerL_fix _ (hmem x),
        List.filter_eq_self.mpr (hmem x)]

/-- C8: when the loaded card groups or the loaded wiki-title list is
empty, the join run raises before producing anything: the result is the
error and the trace of written files is empty. -/
theorem c8_abort_before_output (κ : Type) (cards : List (String × List κ))
    (titles : List String) (wi : String → Option WikiExtract.WikiPageInfo)
    (wt : List (String × String)) (h : cards = [] ∨ titles = []) :
    (∃ msg, (Join.runJoin cards titles wi wt).result = Except.error msg) ∧
    (Join.runJoin cards titles wi wt).written = [] := by
  rcases h with h | h
  · subst h
    exact ⟨⟨("No cards loaded!"), rfl⟩, rfl⟩
  · subst h
    by_cases hc : cards.isEmpty
    · unfold Join.runJoin
      rw [if_pos hc]
      exact ⟨⟨("No cards loaded!"), rfl⟩, rfl⟩
    · unfold Join.runJoin
      rw [if_neg hc]
      exact ⟨⟨("No wiki titles loaded!"), rfl⟩, rfl⟩

/-- C8 witness: the abort at concrete empty card groups. -/
theorem c8_abort_before_output_witness :
    (∃ msg, (Join.runJoin ([] : List (String × List Unit)) [("Pikachu")]
      (fun _ => none) []).result = Except.error msg) ∧
    (Join.runJoin ([] : List (String × List Unit)) [("Pikachu")]
      (fun _ => none) []).written = [] :=
  c8_abort_before_output Unit [] [("Pikachu")] (fun _ => none) [] (Or.inl rfl)

/-- C10: every completed join run emits statistics with total_pokemon the
sum of the matched and unmatched counts, match_rate equal to one hundred
times the matched count over the total, and the matched count equal to
the number of entity groups whose candidate list is non-empty. -/
theorem c10_join_stats (κ : Type) (cards : List (String × List κ))
    (titles : List String) (wi : String → Option WikiExtract.WikiPageInfo)
    (wt : List (String × String)) (stats : Join.JoinStats)
    (h : (Join.runJoin cards titles wi wt).result = Except.ok stats) :
    stats.total_pokemon = stats.pokemon_with_wiki + stats.pokemon_without_wiki ∧
    stats.match_rate =
      100 * (stats.pokemon_with_wiki : ℚ) / (stats.total_pokemon : ℚ) ∧
    stats.pokemon_with_wiki =
      ((Join.joinPokemonWiki cards titles wi (Join.runTextIndex cards wt)).filter
        (fun r => ¬ r.wiki_pages.isEmpty)).length := by
  unfold Join.runJoin at h
  by_cases hc : cards.isEmpty
  · rw [if_pos hc] at h
    exact absurd h (by simp)
  · rw [if_neg hc] at h
    by_cases ht : titles.isEmpty
    · rw [if_pos ht] at h
      exact absurd h (by simp)
    · rw [if_neg ht] at h
      have hs := Except.ok.inj h
      subst hs
      set results :=
        Join.joinPokemonWiki cards titles wi (Join.runTextIndex cards wt)
        with hres
      have hle := List.length_filter_le
        (fun r => decide ¬ r.wiki_pages.isEmpty) results
      refine ⟨?_, ?_, rfl⟩
      · show results.length =
          (results.filter _).length + (results.length - (results.filter _).length)
        omega
      · have hne : results.isEmpty = false := by
          rw [hres]
          cases cards with
          | nil => exact absurd rfl hc
          | cons a l => rfl
        show (if results.isEmpty then (0 : ℚ)
            else ((results.filter _).length : ℚ) / (results.length : ℚ) * 100) =
          100 * ((results.filter _).length : ℚ) / (results.length : ℚ)
        rw [hne]
        simp only [Bool.false_eq_true, if_false]
        rw [div_mul_eq_mul_div, mul_comm]

/-- C10 witness: a one-group, one-title run in which the group matches:
the emitted statistics satisfy the claimed identities. -/
theorem c10_join_stats_witness :
    (Join.runJoin [(("Pikachu"), [()])] [("Pikachu")] (fun _ => none)
        ([] : List (String × String))).result =
      Except.ok (⟨1, 1, 1, 1, 0,
        ((1 : Nat) : ℚ) / ((1 : Nat) : ℚ) * 100⟩ : Join.JoinStats) ∧
    ((1 : Nat) = 1 + 0 ∧
     ((1 : Nat) : ℚ) / ((1 : Nat) : ℚ) * 100 =
       100 * ((1 : Nat) : ℚ) / ((1 : Nat) : ℚ) ∧
     (1 : Nat) = ((Join.joinPokemonWiki [(("Pikachu"), [()])] [("Pikachu")]
         (fun _ => none)
         (Join.runTextIndex [(("Pikachu"), [()])]
           ([] : List (String × String)))).filter
       (fun r => ¬ r.wiki_pages.isEmpty)).length) :=
  ⟨rfl,
   c10_join_stats Unit [(("Pikachu"), [()])] [("Pikachu")] (fun _ => none)
     [] ⟨1, 1, 1, 1, 0, ((1 : Nat) : ℚ) / ((1 : Nat) : ℚ) * 100⟩ rfl⟩

/-- C4: has_pokemon_info is true exactly when one of the seven signal
fields of the extracted record is populated, and the markup fragment
containing only the Electric type1 line yields the flag with the single
type Electric. -/
theorem c4_has_pokemon_info_iff :
    (∀ title text : String,
      ((WikiExtract.extractAllInfo title text).has_pokemon_info = true ↔
        ((WikiExtract.extractAllInfo title text).types ≠ none ∨
         (WikiExtract.extractAllInfo title text).species ≠ none ∨
         (WikiExtract.extractAllInfo title text).generation ≠ none ∨
         (WikiExtract.extractAllInfo title text).abilities ≠ none ∨
         (WikiExtract.extractAllInfo title text).pokedex_number ≠ none ∨
         (WikiExtract.extractAllInfo title text).first_game ≠ none ∨
         (WikiExtract.extractAllInfo title text).design_description ≠ none))) ∧
    (WikiExtract.extractAllInfo ("X") ("| type1 = Electric")).has_pokemon_info
      = true ∧
    (WikiExtract.extractAllInfo ("X") ("| type1 = Electric")).types =
      some [("Electric")] := by
  refine ⟨?_, by decide, by decide⟩
  intro title text
  by_cases h : text = ("")
  · simp [WikiExtract.extractAllInfo, h, WikiExtract.emptyPageInfo]
  · simp only [WikiExtract.extractAllInfo, if_neg h]
    cases hty : (WikiExtract.extractPokemonType text.data).isEmpty <;>
    cases hsp : WikiExtract.extractSpecies text.data <;>
    cases hg : WikiExtract.extractGeneration text.data <;>
    cases hab : (WikiExtract.extractAbilities text.data).isEmpty <;>
    cases hnd : WikiExtract.extractPokedexNumber text.data <;>
    cases hfg : WikiExtract.extractFirstGame text.data <;>
    cases hdd : WikiExtract.extractDesignDescription text.data <;>
    simp [hty, hsp, hg, hab, hnd, hfg, hdd]

/-- C9 witness: the character and idempotence parts at the concrete input
"Ab1!", whose normal form is "ab1". -/
theorem c9_normalize_total_idempotent_witness :
    Py.isLowerAlnum ('a') = true ∧
    Join.normalize (Join.normalize ("Ab1!")) = Join.normalize ("Ab1!") :=
  ⟨c9_normalize_total_idempotent.2.1 ("Ab1!") ('a') (by decide),
   c9_normalize_total_idempotent.2.2 ("Ab1!")⟩
